import Mathlib

/-!
Shallow embedding of the `@now/next` build adapter
(`src/packages/now-next/src/index.ts`) and proofs about the spec's claims.

Strings are modelled through their character lists; JS regular-expression
tests that appear in the source (`^...$` anchors, `.+`, `\.js$`) are modelled
by explicit character-list functions.  External collaborators (Node's `path`
module, the `semver` npm package, `glob`) are modelled by small executable
functions restricted to the inputs this builder produces.
-/

namespace NowNext

/-- Character-level prefix test: model of JS `String.prototype.startsWith`
and of an anchored literal regex prefix `^lit...`. -/
def strStartsWith (s p : String) : Bool := p.data.isPrefixOf s.data

/-- Character-level suffix test: model of JS `String.prototype.endsWith`
and of an anchored literal regex suffix `...lit$`. -/
def strEndsWith (s p : String) : Bool := p.data.isSuffixOf s.data

/-- Drop the first `n` characters (model of JS `slice(n)`). -/
def strDropChars (s : String) (n : Nat) : String := ⟨s.data.drop n⟩

/-- Drop the last `n` characters (model of JS `slice(0, -n)`). -/
def strDropRightChars (s : String) (n : Nat) : String := ⟨s.data.take (s.data.length - n)⟩

/-- True when the string has no newline character.  JS `.` does not match a
newline, so `^lit.+$`-style tests are false on strings containing one. -/
def noNewline (s : String) : Bool := s.data.all (fun c => c != '\n')

/-- Model of a JS regex fragment `.+` matched against a whole remainder:
nonempty and newline-free. -/
def dotPlusTest (s : String) : Bool := !s.data.isEmpty && s.data.all (fun c => c != '\n')

/-- JS truthiness of an optional string property: `undefined` and the empty
string are falsy, every other string is truthy. -/
def jsTruthyStr : Option String → Bool
  | some s => s != ""
  | none => false

/-- Split a character list at a separator character. -/
def splitCharAux (sep : Char) : List Char → List Char → List (List Char)
  | [], acc => [acc.reverse]
  | c :: rest, acc =>
    if c = sep then acc.reverse :: splitCharAux sep rest []
    else splitCharAux sep rest (c :: acc)

/-- Split a string at a separator character (model of JS `split`). -/
def splitChar (sep : Char) (s : String) : List String :=
  (splitCharAux sep s.data []).map String.mk

/-- The forward-slash segments of a path. -/
def pathSegs (s : String) : List String := splitChar '/' s

/-- Join segments back with forward slashes. -/
def joinSegs (l : List String) : String := String.intercalate "/" l

/-- One step of Node's relative-path normalization over segments: empty and
`"."` segments are dropped, `".."` pops the previous segment when one exists
(the accumulator is kept in reverse order). -/
def normStep (acc : List String) (seg : String) : List String :=
  if seg = "" || seg = "." then acc
  else if seg = ".." then
    match acc with
    | [] => [".."]
    | a :: rest => if a = ".." then seg :: a :: rest else rest
  else seg :: acc

/-- Model of Node `path.join` for two arguments, restricted to relative
forward-slash paths (the only inputs this builder produces): non-empty parts
are joined with `/` and the result is segment-normalized; an empty result
becomes `"."`. -/
def pathJoin (a b : String) : String :=
  let parts := [a, b].filter (fun s => s != "")
  if parts.isEmpty then "."
  else
    let out := ((pathSegs (joinSegs parts)).foldl normStep []).reverse
    let res := joinSegs out
    if res = "" then "." else res

/-- Model of Node `path.dirname` for relative forward-slash paths. -/
def pathDirname (p : String) : String :=
  let segs := pathSegs p
  if segs.length ≤ 1 then "." else joinSegs segs.dropLast

example : pathJoin "." "index" = "index" := by decide
example : pathJoin "." "" = "." := by decide
example : pathJoin "" "pages" = "pages" := by decide
example : pathJoin "sub" "blog/index" = "sub/blog/index" := by decide
example : pathJoin "sub/" "pages" = "sub/pages" := by decide
example : pathDirname "package.json" = "." := by decide
example : pathDirname "sub/package.json" = "sub" := by decide

/-! ## Model of the external `semver` collaborator

The builder calls `semver.maxSatisfying(versions, range)` from the `semver`
npm package.  The model restricts ranges to exact versions and caret ranges;
any other string fails to parse.  node-semver catches the range-parse error
inside `maxSatisfying` and returns `null`, which the model renders as `none`. -/

structure Semver where
  major : Nat
  minor : Nat
  patch : Nat
deriving DecidableEq

/-- Parse one decimal numeral. -/
def parseNatAux : List Char → Nat → Option Nat
  | [], n => some n
  | c :: cs, n => if c.isDigit then parseNatAux cs (n * 10 + (c.toNat - 48)) else none

/-- Parse a nonempty decimal numeral. -/
def parseNat (s : String) : Option Nat :=
  if s.data.isEmpty then none else parseNatAux s.data 0

/-- Parse a `major.minor.patch` version string. -/
def parseSemver (s : String) : Option Semver :=
  match splitChar '.' s with
  | [a, b, c] =>
    match parseNat a, parseNat b, parseNat c with
    | some x, some y, some z => some ⟨x, y, z⟩
    | _, _, _ => none
  | _ => none

/-- Strict lexicographic order on versions. -/
def semverLt (a b : Semver) : Bool :=
  decide (a.major < b.major) ||
    (decide (a.major = b.major) && (decide (a.minor < b.minor) ||
      (decide (a.minor = b.minor) && decide (a.patch < b.patch))))

def semverGe (a b : Semver) : Bool := !semverLt a b

inductive SemverRange where
  | exact (v : Semver)
  | caret (v : Semver)
deriving DecidableEq

/-- Model of node-semver range parsing, restricted to exact versions and caret
ranges; any other string fails to parse. -/
def parseRange (s : String) : Option SemverRange :=
  if strStartsWith s "^" then (parseSemver (strDropChars s 1)).map SemverRange.caret
  else (parseSemver s).map SemverRange.exact

/-- Range satisfaction. -/
def satisfies (v : Semver) : SemverRange → Bool
  | SemverRange.exact w => decide (v = w)
  | SemverRange.caret w =>
    if w.major = 0 then
      decide (v.major = 0) && decide (v.minor = w.minor) && decide (w.patch ≤ v.patch)
    else decide (v.major = w.major) && semverGe v w

/-- A version string satisfies a range string: false whenever either side
fails to parse. -/
def satisfiesStr (vs range : String) : Bool :=
  match parseSemver vs, parseRange range with
  | some v, some r => satisfies v r
  | _, _ => false

/-- `a` is a strictly greater parsed version than `b`. -/
def semverGtStr (a b : String) : Bool :=
  match parseSemver a, parseSemver b with
  | some va, some vb => semverLt vb va
  | _, _ => false

/-- One iteration of node-semver `maxSatisfying`: keep the greater satisfying
version. -/
def maxSatStep (range : String) (acc : Option String) (v : String) : Option String :=
  if satisfiesStr v range && (acc.isNone || semverGtStr v (acc.getD "")) then some v else acc

/-- Model of node-semver `maxSatisfying`: `none` when the range cannot be
parsed (node-semver catches the parse error and returns `null`) or when no
version in the list satisfies it; otherwise the greatest satisfying version. -/
def maxSatisfying (versions : List String) (range : String) : Option String :=
  match parseRange range with
  | none => none
  | some _ => versions.foldl (maxSatStep range) none

example : parseSemver "4.2.3" = some ⟨4, 2, 3⟩ := by decide
example : parseRange "foobar" = none := by decide
example : satisfiesStr "4.2.3" "^4.0.0" = true := by decide
example : maxSatisfying ["4.2.3", "7.0.1"] "^4.0.0" = some "4.2.3" := by decide
example : maxSatisfying ["4.2.3", "7.0.1"] "foobar" = none := by decide

/-! ## Version classifier (index.ts lines 88-116) -/

/-- Modelled from the spec: the fixed, hardcoded list of known legacy
framework version strings (`./legacy-versions`, imported by `index.ts` but not
present under `src/`).  The spec fixes only that it is a hardcoded list of
version strings; the entries here are representative. -/
def nextLegacyVersions : List String :=
  ["4.2.3", "5.0.0", "5.1.0", "6.0.0", "6.1.1", "7.0.0", "7.0.1"]

/-- `isLegacyNext` (index.ts lines 98-116): dist-tags are modern, exact
members of the legacy list are legacy, otherwise legacy exactly when
`semver.maxSatisfying` finds a legacy version satisfying the requirement. -/
def isLegacyNext (nextVersion : String) : Bool :=
  if nextVersion == "canary" || nextVersion == "latest" then false
  else if nextLegacyVersions.contains nextVersion then true
  else if (maxSatisfying nextLegacyVersions nextVersion).isNone then false
  else true

/-- The project manifest: the three `package.json` members the builder reads.
JS objects are modelled as association lists in property order; an absent
member is `none`. -/
structure PackageJson where
  dependencies : Option (List (String × String))
  devDependencies : Option (List (String × String))
  scripts : Option (List (String × String))
deriving DecidableEq

/-- `getNextVersion` (index.ts lines 88-96): the `next` entry of
`dependencies`, else of `devDependencies`, under JS truthiness. -/
def getNextVersion (pkg : PackageJson) : Option String :=
  if pkg.dependencies.isSome && jsTruthyStr (pkg.dependencies.bind (List.lookup "next")) then
    pkg.dependencies.bind (List.lookup "next")
  else if pkg.devDependencies.isSome && jsTruthyStr (pkg.devDependencies.bind (List.lookup "next")) then
    pkg.devDependencies.bind (List.lookup "next")
  else none

/-- The version-detection and classification step of `build` (index.ts lines
250-259): no detectable version requirement throws; otherwise the requirement
is classified. -/
def classifyVersion (pkg : PackageJson) : Except String Bool :=
  match getNextVersion pkg with
  | none =>
    Except.error "No Next.js version could be detected in \"package.json\". Make sure `\"next\"` is installed in \"dependencies\" or \"devDependencies\""
  | some nextVersion => Except.ok (isLegacyNext nextVersion)

/-! ## Manifest normalizer, modern path (index.ts lines 284-294) -/

/-- The modern-mode manifest normalization of `build` (index.ts lines
284-294): when `pkg.scripts` is missing or its `now-build` entry is JS-falsy,
the scripts object is rebuilt as the literal with the default entry first and
the old entries spread after it (a spread value overwrites the default in
place); otherwise nothing happens. -/
def injectNowBuild (scripts : Option (List (String × String))) :
    Option (List (String × String)) :=
  if !scripts.isSome || !jsTruthyStr (scripts.bind (List.lookup "now-build")) then
    let s := scripts.getD []
    some (("now-build", (List.lookup "now-build" s).getD "next build")
      :: s.filter (fun kv => kv.1 != "now-build"))
  else scripts

example : injectNowBuild none = some [("now-build", "next build")] := by decide
example : injectNowBuild (some [("test", "jest")]) =
    some [("now-build", "next build"), ("test", "jest")] := by decide
example : injectNowBuild (some [("now-build", "next build && cp a b")]) =
    some [("now-build", "next build && cp a b")] := by decide

/-! ## Install phase of the build driver (index.ts lines 296-314) -/

structure DriverEnv where
  npmAuthToken : Option String
  isLegacy : Bool

/-- Which of the external toolchain steps succeed. -/
structure InstallOutcome where
  installOk : Bool
  buildScriptOk : Bool
  prodInstallOk : Bool

/-- The install/build-script phase of `build` (index.ts lines 296-314).
`.npmrc` is written first when the auth token is truthy; the unlink of
`.npmrc` is the last statement and runs only after every step before it
succeeded.  Returns whether `.npmrc` is on disk afterwards, paired with
success or the first failing step. -/
def runInstallPhase (env : DriverEnv) (o : InstallOutcome) : Bool × Except String Unit :=
  let onDisk := if jsTruthyStr env.npmAuthToken then true else false
  if !o.installOk then (onDisk, Except.error "npm install failed")
  else if !o.buildScriptOk then (onDisk, Except.error "now-build script failed")
  else if env.isLegacy && !o.prodInstallOk then
    (onDisk, Except.error "npm install --production failed")
  else ((if jsTruthyStr env.npmAuthToken then false else onDisk), Except.ok ())

/-! ## Per-page packaging (index.ts lines 316-463) -/

def specialPages : List String := ["_app.js", "_error.js", "_document.js"]

/-- `page.replace(/\.js$/, '')` -/
def stripJsSuffix (p : String) : String :=
  if strEndsWith p ".js" then strDropRightChars p 3 else p

/-- `pathname.replace(/(^|\/)index$/, '')`: the match includes the preceding
slash (or the whole string when it is exactly `index`). -/
def collapseIndexSuffix (s : String) : String :=
  if s = "index" then ""
  else if strEndsWith s "/index" then strDropRightChars s 6
  else s

/-- The pathname substituted for the first `PATHNAME_PLACEHOLDER` occurrence
in the legacy launcher template (index.ts lines 367-370). -/
def legacyLauncherPathname (page : String) : String :=
  "/" ++ collapseIndexSuffix (stripJsSuffix page)

/-- The per-page lambda-map construction shared by the legacy branch (index.ts
lines 359-399) and the modern branch (lines 441-462): the three special pages
are skipped, and every other page yields a deployable unit keyed by
`path.join(entryDirectory, page.replace(/\.js$/, ''))`.  Each key is paired
with the page bundle it came from. -/
def lambdaEntries (entryDirectory : String) (pages : List String) :
    List (String × String) :=
  (pages.filter (fun p => !specialPages.contains p)).map
    (fun p => (pathJoin entryDirectory (stripJsSuffix p), p))

/-- The post-build file tree, abstracted to what artifact discovery reads:
the contents of `.next/BUILD_ID` when that file exists, the page bundles
found under the legacy per-build pages directory, the page bundles found
under `.next/serverless/pages`, and (modelled from the spec) the result of
`getNextConfig` (`./utils`, not under `src/`): the framework config contents
when found. -/
structure BuildFs where
  buildId : Option String
  legacyPages : List String
  serverlessPages : List String
  nextConfig : Option String

/-- Artifact discovery and packaging phase of `build` (index.ts lines
316-463) over an abstract post-build tree.  Legacy requires `.next/BUILD_ID`
(lines 322-333) and otherwise packages the legacy page bundles; modern throws
on zero serverless pages, surfacing the framework config on the console when
found (lines 408-427), and otherwise packages the serverless page bundles.
Returns the console log paired with the lambda entries or the thrown error. -/
def packageArtifacts (isLegacy : Bool) (entryDirectory : String) (fs : BuildFs) :
    List String × Except String (List (String × String)) :=
  if isLegacy then
    match fs.buildId with
    | none =>
      (["BUILD_ID not found in \".next\". The \"package.json\" \"build\" script did not run \"next build\""],
        Except.error "Missing BUILD_ID")
    | some _ => ([], Except.ok (lambdaEntries entryDirectory fs.legacyPages))
  else if fs.serverlessPages.isEmpty then
    ((match fs.nextConfig with
      | some cfg => ["Found next.config.js:", cfg]
      | none => []),
      Except.error "No serverless pages were built. https://err.sh/zeit/now-builders/now-next-no-serverless-pages-built")
  else ([], Except.ok (lambdaEntries entryDirectory fs.serverlessPages))

/-! ## Cache manifest builder (index.ts lines 489-514) -/

/-- Model of the external `glob` collaborator applied to the four cache
patterns of `prepareCache` (index.ts lines 506-511), with the entry directory
at the project root: everything under `node_modules/`, everything under
`.next/cache/`, and the two lockfiles. -/
def cacheGlobs (tree : List String) : List String :=
  tree.filter (fun f =>
    strStartsWith f "node_modules/" || strStartsWith f ".next/cache/" ||
      f == "package-lock.json" || f == "yarn.lock")

/-- `prepareCache` (index.ts lines 489-514): re-reads the manifest,
re-classifies the framework version, throws when none is detectable, returns
the empty file set in legacy mode, and the cache globs otherwise. -/
def prepareCache (pkg : PackageJson) (tree : List String) :
    Except String (List String) :=
  match getNextVersion pkg with
  | none => Except.error "Could not parse Next.js version"
  | some nextVersion =>
    if isLegacyNext nextVersion then Except.ok []
    else Except.ok (cacheGlobs tree)

/-! ## Serve predicate (index.ts lines 118-155 and 516-544) -/

/-- Modelled from the spec: `includeOnlyEntryDirectory` (`./utils`, not under
`src/`) — keep only the File Set entries inside the given directory. -/
def includeOnlyEntryDirectory (files : List String) (dir : String) : List String :=
  if dir = "." then files else files.filter (fun f => strStartsWith f (dir ++ "/"))

/-- `pageExists` (index.ts lines 118-155): whether a source page file for
`nm` exists in `pages`, trying the fixed extension and `/index` candidates in
order. -/
def pageExists (nm : String) (pages : List String) (entry : String) : Bool :=
  let entryPre := if entry != "" then entry ++ "/" else ""
  let inPages := fun (names : List String) =>
    names.any (fun n => pages.contains (entryPre ++ "pages/" ++ n))
  if nm == "" || nm == "/" then
    inPages ["index.js", "index.ts", "index.jsx", "index.tsx", "index.mdx"]
  else
    inPages [nm ++ ".js", nm ++ ".ts", nm ++ ".jsx", nm ++ ".tsx", nm ++ ".mdx",
      nm ++ "/index.js", nm ++ "/index.ts", nm ++ "/index.jsx", nm ++ "/index.tsx",
      nm ++ "/index.mdx"]

/-- The test of `new RegExp("^" ++ ed ++ "static/.+$")` (index.ts line 520). -/
def staticRegexTest (ed r : String) : Bool :=
  strStartsWith r (ed ++ "static/") && dotPlusTest (strDropChars r (ed ++ "static/").data.length)

/-- The test of `new RegExp("^" ++ ed ++ "_next.+$")` (index.ts line 537). -/
def nextRegexTest (ed r : String) : Bool :=
  strStartsWith r (ed ++ "_next") && dotPlusTest (strDropChars r (ed ++ "_next").data.length)

/-- Match against `new RegExp("^" ++ ed ++ "_next/static/unoptimized-build/pages/(.+)\\.js$")`
(index.ts lines 527-529), returning the captured group. -/
def clientPageMatch (ed r : String) : Option String :=
  let p := ed ++ "_next/static/unoptimized-build/pages/"
  if strStartsWith r p && strEndsWith r ".js" then
    let captured := strDropRightChars (strDropChars r p.data.length) 3
    if dotPlusTest captured then some captured else none
  else none

/-- The entry directory as `shouldServe` computes it (index.ts lines
517-518): `path.dirname` of the entrypoint, with `.` replaced by the empty
string and anything else given a trailing slash. -/
def entryDirOf (entrypoint : String) : String :=
  let entry := pathDirname entrypoint
  if entry = "." then "" else entry ++ "/"

/-- `shouldServe` (index.ts lines 516-544). -/
def shouldServe (entrypoint : String) (files : List String) (requestPath : String) : Bool :=
  let entryDirectory := entryDirOf entrypoint
  if staticRegexTest entryDirectory requestPath then true
  else
    let pages := includeOnlyEntryDirectory files (pathJoin entryDirectory "pages")
    match clientPageMatch entryDirectory requestPath with
    | some requestedPage =>
      if requestedPage == "_error" || requestedPage == "_document" || requestedPage == "_app" then
        true
      else pageExists requestedPage pages entryDirectory
    | none =>
      if nextRegexTest entryDirectory requestPath then true
      else
        pageExists
          (if strEndsWith requestPath "/" then strDropRightChars requestPath 1 else requestPath)
          pages entryDirectory

example : shouldServe "package.json" ["pages/index.js", "pages/about.js"] "" = true := by decide
example : shouldServe "package.json" ["pages/index.js", "pages/about.js"] "/" = true := by decide
example : shouldServe "package.json" ["pages/index.js", "pages/about.js"] "about" = true := by decide
example : shouldServe "package.json" ["pages/index.js", "pages/about.js"] "about/" = true := by decide
example : shouldServe "package.json" ["pages/index.js", "pages/about.js"] "missing" = false := by decide
example : shouldServe "package.json" ["pages/index.js", "pages/about.js"] "_next/static/css/a.css" = true := by decide
example : shouldServe "package.json" ["pages/index.js", "pages/about.js"]
    "_next/static/unoptimized-build/pages/missing.js" = false := by decide
example : shouldServe "package.json" ["pages/index.js", "pages/about.js"]
    "_next/static/unoptimized-build/pages/about.js" = true := by decide
example : shouldServe "package.json" ["pages/index.js", "pages/about.js"]
    "_next/static/unoptimized-build/pages/_app.js" = true := by decide

/-! ## Claims -/

/-- C1 counterexample: the code keys deployable units by
`path.join(entryDirectory, page.replace(/\.js$/, ''))` with no index
collapsing, so `blog/index.js` is keyed `blog/index` (not `blog`) and the
root `index.js` is keyed `index` (not the empty route joined with the entry
directory, which would be `.`). -/
theorem c1_route_key_counterexample :
    (lambdaEntries "." ["blog/index.js"]).map Prod.fst = ["blog/index"] ∧
    pathJoin "." "blog" = "blog" ∧ ("blog/index" : String) ≠ "blog" ∧
    (lambdaEntries "." ["index.js"]).map Prod.fst = ["index"] ∧
    pathJoin "." "" = "." ∧ ("index" : String) ≠ "." := by decide

/-- C1 (amended): in both the legacy and the modern branch, the route key of
every packaged page bundle is the entry directory joined with the bundle path
with only the `.js` extension stripped — no index collapsing; `about.js` →
`about`, `blog/index.js` → `blog/index`, root `index.js` → `index`.  The
trailing-index collapse belongs only to the pathname substituted into the
legacy launcher shim: `/about`, `/blog`, `/`. -/
theorem c1_route_key_derivation :
    (∀ (d : String) (pages : List String),
      (lambdaEntries d pages).map Prod.fst =
        (pages.filter (fun p => !specialPages.contains p)).map
          (fun p => pathJoin d (stripJsSuffix p))) ∧
    (lambdaEntries "." ["about.js"]).map Prod.fst = ["about"] ∧
    (lambdaEntries "." ["blog/index.js"]).map Prod.fst = ["blog/index"] ∧
    (lambdaEntries "." ["index.js"]).map Prod.fst = ["index"] ∧
    legacyLauncherPathname "about.js" = "/about" ∧
    legacyLauncherPathname "blog/index.js" = "/blog" ∧
    legacyLauncherPathname "index.js" = "/" := by
  refine ⟨fun d pages => ?_, by decide, by decide, by decide, by decide, by decide, by decide⟩
  simp [lambdaEntries, List.map_map, Function.comp]

/-- C2: at the failing input (a truthy auth token in the environment and a
failing `npm install`) the install phase of `build` leaves `.npmrc` on disk
while propagating the failure, because the `unlink` is the phase's last
statement and runs only after every step succeeded; on the success path the
file is removed. -/
theorem c2_npmrc_left_on_disk_on_install_failure :
    (runInstallPhase ⟨some "secret-token", false⟩ ⟨false, true, true⟩).1 = true ∧
    (runInstallPhase ⟨some "secret-token", false⟩ ⟨false, true, true⟩).2 =
      Except.error "npm install failed" ∧
    (runInstallPhase ⟨some "secret-token", false⟩ ⟨true, false, true⟩).1 = true ∧
    (runInstallPhase ⟨some "secret-token", false⟩ ⟨true, true, true⟩).1 = false := by
  exact ⟨rfl, rfl, rfl, rfl⟩

/-- C5: in both branches, no deployable unit is ever created for the special
page bundles `_app.js`, `_error.js`, `_document.js`: no lambda entry
originates from any of them. -/
theorem c5_no_special_page_lambda (entryDirectory : String) (pages : List String)
    (s : String) (hs : s ∈ specialPages) :
    s ∉ (lambdaEntries entryDirectory pages).map Prod.snd := by
  intro hmem
  simp only [lambdaEntries, List.map_map, Function.comp, List.mem_map,
    List.mem_filter] at hmem
  obtain ⟨p, ⟨_, hns⟩, hps⟩ := hmem
  subst hps
  simp_all

theorem c5_witness :
    ("_app.js" ∈ specialPages) ∧
    "_app.js" ∉ (lambdaEntries "." ["index.js", "_app.js", "about.js"]).map Prod.snd :=
  ⟨by decide, c5_no_special_page_lambda "." ["index.js", "_app.js", "about.js"] "_app.js" (by decide)⟩

/-- C6: when the post-build artifact layout is wrong — legacy mode with no
`.next/BUILD_ID`, or modern mode with zero serverless page bundles — the
packaging phase throws and returns no output, and in the modern zero-pages
case the framework config contents, when found, are surfaced on the console
before the error. -/
theorem c6_artifact_layout_errors (entryDirectory : String) (fs : BuildFs) (cfg : String) :
    (fs.buildId = none →
      (packageArtifacts true entryDirectory fs).2 = Except.error "Missing BUILD_ID") ∧
    (fs.serverlessPages = [] →
      (packageArtifacts false entryDirectory fs).2 =
        Except.error "No serverless pages were built. https://err.sh/zeit/now-builders/now-next-no-serverless-pages-built") ∧
    (fs.serverlessPages = [] → fs.nextConfig = some cfg →
      cfg ∈ (packageArtifacts false entryDirectory fs).1) := by
  refine ⟨fun h => ?_, fun h => ?_, fun h hc => ?_⟩ <;>
    simp [packageArtifacts, h]
  · rw [hc]; simp

theorem c6_witness :
    ((⟨none, [], [], some "target: serverless"⟩ : BuildFs).buildId = none) ∧
    (packageArtifacts true "." ⟨none, [], [], some "target: serverless"⟩).2 =
      Except.error "Missing BUILD_ID" ∧
    (packageArtifacts false "." ⟨none, [], [], some "target: serverless"⟩).2 =
      Except.error "No serverless pages were built. https://err.sh/zeit/now-builders/now-next-no-serverless-pages-built" ∧
    "target: serverless" ∈
      (packageArtifacts false "." ⟨none, [], [], some "target: serverless"⟩).1 := by
  have h := c6_artifact_layout_errors "." ⟨none, [], [], some "target: serverless"⟩
    "target: serverless"
  exact ⟨rfl, h.1 rfl, h.2.1 rfl, h.2.2 rfl rfl⟩

/-- C9: whenever the detected framework version classifies as legacy,
`prepareCache` returns the empty file set, whatever the on-disk tree holds. -/
theorem c9_prepareCache_legacy_empty (pkg : PackageJson) (tree : List String)
    (v : String) (h1 : getNextVersion pkg = some v) (h2 : isLegacyNext v = true) :
    prepareCache pkg tree = Except.ok [] := by
  unfold prepareCache
  rw [h1]
  simp [h2]

theorem c9_witness :
    getNextVersion ⟨some [("next", "4.2.3")], none, none⟩ = some "4.2.3" ∧
    isLegacyNext "4.2.3" = true ∧
    prepareCache ⟨some [("next", "4.2.3")], none, none⟩
      ["node_modules/react/index.js", "yarn.lock", "pages/index.js"] = Except.ok [] :=
  ⟨by decide, by decide,
    c9_prepareCache_legacy_empty ⟨some [("next", "4.2.3")], none, none⟩
      ["node_modules/react/index.js", "yarn.lock", "pages/index.js"] "4.2.3"
      (by decide) (by decide)⟩

/-- C10: `prepareCache` re-derives the framework version from the manifest it
re-reads, independently of `build`, and fails with "Could not parse Next.js
version" whenever no framework dependency is detectable — regardless of the
on-disk tree, so the cache step can fail even after a successful build. -/
theorem c10_prepareCache_requires_version (pkg : PackageJson) (tree : List String)
    (h : getNextVersion pkg = none) :
    prepareCache pkg tree = Except.error "Could not parse Next.js version" := by
  unfold prepareCache
  rw [h]

/-- Helper: `maxSatStep` preserves and detects satisfiability. -/
theorem maxSatStep_isSome (range : String) (acc : Option String) (v : String) :
    (maxSatStep range acc v).isSome = (acc.isSome || satisfiesStr v range) := by
  unfold maxSatStep
  cases h : satisfiesStr v range <;> cases acc <;> simp [h]
  split <;> simp

/-- Helper: the `maxSatisfying` fold finds a version iff one satisfies. -/
theorem foldl_maxSatStep_isSome (range : String) (l : List String) (acc : Option String) :
    (l.foldl (maxSatStep range) acc).isSome =
      (acc.isSome || l.any (fun v => satisfiesStr v range)) := by
  induction l generalizing acc with
  | nil => simp
  | cons v t ih => simp [List.foldl_cons, ih, maxSatStep_isSome, Bool.or_assoc]

/-- Helper: nothing satisfies an unparseable range. -/
theorem satisfiesStr_of_parseRange_none (v range : String) (h : parseRange range = none) :
    satisfiesStr v range = false := by
  unfold satisfiesStr
  rw [h]
  cases parseSemver v <;> rfl

/-- Helper: `maxSatisfying` finds a version iff some list entry satisfies the
range (an unparseable range is satisfied by nothing). -/
theorem maxSatisfying_isSome (versions : List String) (range : String) :
    (maxSatisfying versions range).isSome = versions.any (fun v => satisfiesStr v range) := by
  unfold maxSatisfying
  cases h : parseRange range with
  | none =>
    have hall : ∀ v, satisfiesStr v range = false :=
      fun v => satisfiesStr_of_parseRange_none v range h
    simp [hall]
  | some r => simp [foldl_maxSatStep_isSome]

/-- Helper: outside the dist-tags and the exact legacy list, `isLegacyNext`
is the satisfiability check against the legacy list. -/
theorem isLegacyNext_eq_any (v : String) (h1 : v ≠ "latest") (h2 : v ≠ "canary")
    (h3 : v ∉ nextLegacyVersions) :
    isLegacyNext v = nextLegacyVersions.any (fun lv => satisfiesStr lv v) := by
  unfold isLegacyNext
  rw [if_neg, if_neg]
  · rw [← maxSatisfying_isSome]
    cases maxSatisfying nextLegacyVersions v <;> simp
  · simp [List.contains, h3]
  · simp [h1, h2]

/-- C3 counterexample: `foobar` is neither a dist-tag nor in the legacy list
and cannot be parsed as a range, yet the classifier does not fail: it returns
the modern classification, and the build's classification step succeeds. -/
theorem c3_unparseable_counterexample :
    parseRange "foobar" = none ∧
    isLegacyNext "foobar" = false ∧
    classifyVersion ⟨some [("next", "foobar")], none, none⟩ = Except.ok false := by
  exact ⟨by decide, by decide, rfl⟩

/-- C3 (amended): a version requirement that is not a dist-tag, not in the
legacy list and cannot be parsed as a range is classified modern
(`maxSatisfying` returns `null` for an invalid range); the classification
step fails only when no framework version requirement is detected at all. -/
theorem c3_unparseable_is_modern (v : String) (pkg : PackageJson)
    (h1 : v ≠ "latest") (h2 : v ≠ "canary") (h3 : v ∉ nextLegacyVersions)
    (h4 : parseRange v = none) (h5 : getNextVersion pkg = none) :
    isLegacyNext v = false ∧
    classifyVersion pkg =
      Except.error "No Next.js version could be detected in \"package.json\". Make sure `\"next\"` is installed in \"dependencies\" or \"devDependencies\"" := by
  constructor
  · rw [isLegacyNext_eq_any v h1 h2 h3]
    have hall : ∀ lv, satisfiesStr lv v = false :=
      fun lv => satisfiesStr_of_parseRange_none lv v h4
    simp [hall]
  · unfold classifyVersion
    rw [h5]

theorem c3_witness :
    parseRange "foobar" = none ∧
    (isLegacyNext "foobar" = false ∧
      classifyVersion ⟨none, none, none⟩ =
        Except.error "No Next.js version could be detected in \"package.json\". Make sure `\"next\"` is installed in \"dependencies\" or \"devDependencies\"") :=
  ⟨by decide,
    c3_unparseable_is_modern "foobar" ⟨none, none, none⟩ (by decide) (by decide)
      (by decide) (by decide) (by decide)⟩

/-- C4: `isLegacyNext` classifies the dist-tags `latest` and `canary` as
modern, every verbatim member of the legacy list as legacy, and any other
requirement as legacy exactly when some version of the legacy list satisfies
it as a semver range. -/
theorem c4_isLegacyNext_classification :
    isLegacyNext "latest" = false ∧ isLegacyNext "canary" = false ∧
    (∀ v ∈ nextLegacyVersions, isLegacyNext v = true) ∧
    (∀ v : String, v ≠ "latest" → v ≠ "canary" → v ∉ nextLegacyVersions →
      (isLegacyNext v = true ↔ ∃ lv ∈ nextLegacyVersions, satisfiesStr lv v = true)) := by
  refine ⟨by decide, by decide, by decide, fun v h1 h2 h3 => ?_⟩
  rw [isLegacyNext_eq_any v h1 h2 h3]
  simp [List.any_eq_true]

theorem c4_witness :
    ("^4.0.0" : String) ∉ nextLegacyVersions ∧ isLegacyNext "^4.0.0" = true :=
  ⟨by decide,
    (c4_isLegacyNext_classification.2.2.2 "^4.0.0" (by decide) (by decide)
      (by decide)).mpr ⟨"4.2.3", by decide, by decide⟩⟩

theorem c10_witness :
    getNextVersion ⟨some [("react", "16.8.0")], none, none⟩ = none ∧
    prepareCache ⟨some [("react", "16.8.0")], none, none⟩ ["node_modules/react/index.js"] =
      Except.error "Could not parse Next.js version" :=
  ⟨by decide,
    c10_prepareCache_requires_version ⟨some [("react", "16.8.0")], none, none⟩
      ["node_modules/react/index.js"] (by decide)⟩

/-- C7 counterexample: `_next/static/unoptimized-build/pages/missing.js` is a
path under the `_next/` prefix, yet `shouldServe` answers false for it: the
path matches the unoptimized client-page bundle pattern, the captured page
`missing` is not special, and no matching source page exists. -/
theorem c7_next_prefix_counterexample :
    strStartsWith "_next/static/unoptimized-build/pages/missing.js" "_next/" = true ∧
    shouldServe "package.json" ["pages/index.js", "pages/about.js"]
      "_next/static/unoptimized-build/pages/missing.js" = false := by decide

/-- C7 (amended): with source pages `pages/index.js` and `pages/about.js` at
the root, `shouldServe` answers true for `""`, `"/"`, `about` and `about/`,
false for `missing`, and true for every newline-free path under the `_next/`
prefix that does not match the unoptimized client-page bundle pattern. -/
theorem c7_shouldServe_spec (r : String)
    (h1 : strStartsWith r "_next/" = true) (h2 : noNewline r = true)
    (h3 : clientPageMatch "" r = none) :
    shouldServe "package.json" ["pages/index.js", "pages/about.js"] "" = true ∧
    shouldServe "package.json" ["pages/index.js", "pages/about.js"] "/" = true ∧
    shouldServe "package.json" ["pages/index.js", "pages/about.js"] "about" = true ∧
    shouldServe "package.json" ["pages/index.js", "pages/about.js"] "about/" = true ∧
    shouldServe "package.json" ["pages/index.js", "pages/about.js"] "missing" = false ∧
    shouldServe "package.json" ["pages/index.js", "pages/about.js"] r = true := by
  refine ⟨by decide, by decide, by decide, by decide, by decide, ?_⟩
  obtain ⟨rdata⟩ := r
  have h1' : ("_next/".data).isPrefixOf rdata = true := h1
  obtain ⟨t, ht⟩ := List.isPrefixOf_iff_prefix.mp h1'
  have ht' : rdata = '_' :: 'n' :: 'e' :: 'x' :: 't' :: '/' :: t := by
    rw [← ht]
    rfl
  subst ht'
  have hta : t.all (fun c => c != '\n') = true := by
    have h2' : ('_' :: 'n' :: 'e' :: 'x' :: 't' :: '/' :: t).all (fun c => c != '\n') = true := h2
    simpa using h2'
  have hstatic : staticRegexTest "" ⟨'_' :: 'n' :: 'e' :: 'x' :: 't' :: '/' :: t⟩ = false := rfl
  have hnext : nextRegexTest "" ⟨'_' :: 'n' :: 'e' :: 'x' :: 't' :: '/' :: t⟩ =
      t.all (fun c => c != '\n') := rfl
  have he : entryDirOf "package.json" = "" := rfl
  simp [shouldServe, he, h3, hstatic, hnext, hta]

theorem c7_witness :
    strStartsWith "_next/static/css/styles.css" "_next/" = true ∧
    noNewline "_next/static/css/styles.css" = true ∧
    clientPageMatch "" "_next/static/css/styles.css" = none ∧
    shouldServe "package.json" ["pages/index.js", "pages/about.js"]
      "_next/static/css/styles.css" = true :=
  ⟨by decide, by decide, by decide,
    (c7_shouldServe_spec "_next/static/css/styles.css" (by decide) (by decide)
      (by decide)).2.2.2.2.2⟩

/-- Helper: filtering out the `now-build` entries does not change the lookup
of any other key. -/
theorem lookup_filter_not_nowBuild (s : List (String × String)) (k : String)
    (hk : k ≠ "now-build") :
    (s.filter (fun kv => kv.1 != "now-build")).lookup k = s.lookup k := by
  induction s with
  | nil => rfl
  | cons kv t ih =>
    obtain ⟨k1, v1⟩ := kv
    by_cases h : k1 = "now-build"
    · subst h
      have hbeq : (k == "now-build") = false := by simp [hk]
      simp [List.filter_cons, List.lookup_cons, hbeq, ih]
    · by_cases hkk : k = k1
      · subst hkk
        simp [List.filter_cons, h, List.lookup_cons]
      · have hbeq : (k == k1) = false := by simp [hkk]
        simp [List.filter_cons, h, List.lookup_cons, hbeq, ih]

/-- Helper: the `now-build` filter is idempotent. -/
theorem filter_nowBuild_idem (s : List (String × String)) :
    ((s.filter (fun kv => kv.1 != "now-build")).filter (fun kv => kv.1 != "now-build")) =
      s.filter (fun kv => kv.1 != "now-build") := by
  rw [List.filter_filter]
  exact List.filter_congr (fun a _ => Bool.and_self _)

/-- C8: the modern-mode manifest normalizer, on the scripts mapping: when
`now-build` is absent exactly the default entry is injected and every other
entry's lookup is preserved; when `now-build` is present the scripts mapping
is unchanged (and the object untouched whenever the entry is truthy); and
the normalization is idempotent, so a second run yields the same scripts. -/
theorem c8_manifest_normalizer (os : Option (List (String × String)))
    (s : List (String × String)) (k v : String) :
    injectNowBuild (injectNowBuild os) = injectNowBuild os ∧
    (s.lookup "now-build" = none →
      ((injectNowBuild (some s)).getD []).lookup "now-build" = some "next build") ∧
    (s.lookup "now-build" = none → k ≠ "now-build" →
      ((injectNowBuild (some s)).getD []).lookup k = s.lookup k) ∧
    (s.lookup "now-build" = some v →
      ((injectNowBuild (some s)).getD []).lookup k = s.lookup k) ∧
    (s.lookup "now-build" = some v → v ≠ "" → injectNowBuild (some s) = some s) := by
  refine ⟨?_, fun hn => ?_, fun hn hk => ?_, fun hs => ?_, fun hs hv => ?_⟩
  · cases os with
    | none => decide
    | some s0 =>
      cases h : List.lookup "now-build" s0 with
      | none =>
        have h1 : injectNowBuild (some s0) =
            some (("now-build", "next build") :: s0.filter (fun kv => kv.1 != "now-build")) := by
          unfold injectNowBuild
          simp [h, jsTruthyStr]
        rw [h1]
        unfold injectNowBuild
        simp [jsTruthyStr]
      | some v0 =>
        by_cases hv0 : v0 = ""
        · subst hv0
          have h1 : injectNowBuild (some s0) =
              some (("now-build", "") :: s0.filter (fun kv => kv.1 != "now-build")) := by
            unfold injectNowBuild
            simp [h, jsTruthyStr]
          rw [h1]
          unfold injectNowBuild
          simp [jsTruthyStr, filter_nowBuild_idem]
        · have h1 : injectNowBuild (some s0) = some s0 := by
            unfold injectNowBuild
            simp [h, jsTruthyStr, hv0]
          rw [h1, h1]
  · have h1 : injectNowBuild (some s) =
        some (("now-build", "next build") :: s.filter (fun kv => kv.1 != "now-build")) := by
      unfold injectNowBuild
      simp [hn, jsTruthyStr]
    rw [h1]
    simp
  · have h1 : injectNowBuild (some s) =
        some (("now-build", "next build") :: s.filter (fun kv => kv.1 != "now-build")) := by
      unfold injectNowBuild
      simp [hn, jsTruthyStr]
    rw [h1]
    have hbeq : (k == "now-build") = false := by simp [hk]
    simp [List.lookup_cons, hbeq, lookup_filter_not_nowBuild s k hk]
  · by_cases hv0 : v = ""
    · subst hv0
      have h1 : injectNowBuild (some s) =
          some (("now-build", "") :: s.filter (fun kv => kv.1 != "now-build")) := by
        unfold injectNowBuild
        simp [hs, jsTruthyStr]
      rw [h1]
      by_cases hk : k = "now-build"
      · subst hk
        simp [hs]
      · have hbeq : (k == "now-build") = false := by simp [hk]
        simp [List.lookup_cons, hbeq, lookup_filter_not_nowBuild s k hk]
    · have h1 : injectNowBuild (some s) = some s := by
        unfold injectNowBuild
        simp [hs, jsTruthyStr, hv0]
      rw [h1]
      rfl
  · unfold injectNowBuild
    simp [hs, jsTruthyStr, hv]

theorem c8_witness :
    List.lookup "now-build" [("test", "jest")] = none ∧
    ((injectNowBuild (some [("test", "jest")])).getD []).lookup "now-build" = some "next build" ∧
    injectNowBuild (injectNowBuild (some [("test", "jest")])) =
      injectNowBuild (some [("test", "jest")]) :=
  ⟨by decide,
    (c8_manifest_normalizer (some [("test", "jest")]) [("test", "jest")] "test" "jest").2.1
      (by decide),
    (c8_manifest_normalizer (some [("test", "jest")]) [("test", "jest")] "test" "jest").1⟩

end NowNext
